import Mathlib

set_option maxRecDepth 8192

/-!
Shallow embedding of the tabular ingestion pipeline of
`src/services/googleSheetsService.ts`: the CSV row/field parser
(`parseCsvRow`), the date normalizer (`normalizeDate`), and the
block-based pivot parser (`parseBlockBasedPivotData`).

Modelling conventions:
* JS strings are Lean `String`s (all characters involved are in the BMP).
* JS `undefined` from an out-of-range index access `xs[i]` is modelled by
  `List.get?`; where the source uses optional chaining (`xs[i]?.trim()`)
  followed by a falsiness check, the model maps the `Option` and compares
  the defaulted value with `""` (both `undefined` and `""` are falsy).
* JS numbers arising from `Number(...)` on score cells are modelled
  exactly as rationals (`ℚ`); no claim depends on binary floating-point
  rounding, and `NaN`/`±Infinity` — which the source filters out with
  `isFinite` — are modelled by `Option.none`.
* A thrown exception inside the parse stage (reachable when the source
  indexes past the end of `rows` and hands `undefined` to `parseCsvRow`)
  is modelled by `Option.none` at the result type of
  `parseBlockBasedPivotData`.
* `new Date().getFullYear()` is an explicit `currentYear : Nat` parameter.
-/

/-- ASCII digit test, the JS regex class `\d`. -/
def isAsciiDigit (c : Char) : Bool :=
  48 ≤ c.toNat && c.toNat ≤ 57

/-- Whitespace in the sense of ECMAScript `String.prototype.trim` /
`parseFloat` (WhiteSpace ∪ LineTerminator code points). -/
def isJsSpace (c : Char) : Bool :=
  c.toNat = 0x09 || c.toNat = 0x0A || c.toNat = 0x0B || c.toNat = 0x0C ||
  c.toNat = 0x0D || c.toNat = 0x20 || c.toNat = 0xA0 || c.toNat = 0x1680 ||
  (0x2000 ≤ c.toNat && c.toNat ≤ 0x200A) || c.toNat = 0x2028 ||
  c.toNat = 0x2029 || c.toNat = 0x202F || c.toNat = 0x205F ||
  c.toNat = 0x3000 || c.toNat = 0xFEFF

/-- Character-list core of JS `trim`: drop leading and trailing whitespace. -/
def trimCharList (l : List Char) : List Char :=
  ((l.dropWhile isJsSpace).reverse.dropWhile isJsSpace).reverse

/-- JS `String.prototype.trim`. -/
def jsTrim (s : String) : String :=
  ⟨trimCharList s.data⟩

/-- Lowercasing of one character as JS `toLowerCase` performs it, restricted
to ASCII Latin and Cyrillic (identity on all other code points — the only
cased characters this service compares are Latin and Cyrillic). -/
def jsToLowerChar (c : Char) : Char :=
  if 0x41 ≤ c.toNat ∧ c.toNat ≤ 0x5A then Char.ofNat (c.toNat + 32)
  else if 0x410 ≤ c.toNat ∧ c.toNat ≤ 0x42F then Char.ofNat (c.toNat + 32)
  else if c.toNat = 0x401 then Char.ofNat 0x451
  else c

/-- JS `String.prototype.toLowerCase` (restricted as `jsToLowerChar`). -/
def jsToLowerCase (s : String) : String :=
  ⟨s.data.map jsToLowerChar⟩

/-- Does the second list start with the first one. -/
def startsWithList : List Char → List Char → Bool
  | [], _ => true
  | _ :: _, [] => false
  | a :: as, b :: bs => a = b && startsWithList as bs

/-- JS `String.prototype.includes`: does `hay` contain `needle` as a
contiguous substring. -/
def listIncludes (needle : List Char) : List Char → Bool
  | [] => startsWithList needle []
  | c :: rest => startsWithList needle (c :: rest) || listIncludes needle rest

/-- JS `str.replace(/"/g, '')`: remove every quote character. -/
def removeQuotes (s : String) : String :=
  ⟨s.data.filter (fun c => c ≠ '"')⟩

/-- JS `String.prototype.padStart(n, c)`. -/
def jsPadStart (n : Nat) (pad : Char) (s : String) : String :=
  ⟨List.replicate (n - s.data.length) pad ++ s.data⟩

/-- Split a character list at every occurrence of `sep` (JS
`String.prototype.split` with a single-character separator). -/
def splitOnChar (sep : Char) : List Char → List (List Char)
  | [] => [[]]
  | c :: rest =>
    match splitOnChar sep rest with
    | [] => if c = sep then [[], []] else [[c]]
    | h :: t => if c = sep then [] :: h :: t else (c :: h) :: t

/-- Drop a single trailing carriage return, as the `\r?` of the row
separator regex `/\r?\n/` does. -/
def dropTrailingCR (l : List Char) : List Char :=
  if l.getLast? = some '\r' then l.dropLast else l

/-- JS `csvText.split(/\r?\n/)`: split on line feeds, each line losing one
optional carriage return immediately before the line feed. (The model drops
a trailing `\r` from every segment; this agrees with the regex split on
every string that does not end in a bare `\r`, and the pipeline only splits
trimmed text, which never ends in the whitespace character `\r`.) -/
def splitLines (s : String) : List String :=
  (splitOnChar '\n' s.data).map (fun l => ⟨dropTrailingCR l⟩)

/-- Numeric value of an ASCII digit character. -/
def digitVal (c : Char) : Nat :=
  c.toNat - 48

/-- Value of a list of ASCII decimal digits. -/
def digitsToNat (l : List Char) : Nat :=
  l.foldl (fun a c => a * 10 + digitVal c) 0

/-- Hexadecimal digit test. -/
def isHexDigitChar (c : Char) : Bool :=
  isAsciiDigit c || (97 ≤ c.toNat && c.toNat ≤ 102) ||
  (65 ≤ c.toNat && c.toNat ≤ 70)

/-- Numeric value of a hexadecimal digit character. -/
def hexVal (c : Char) : Nat :=
  if 97 ≤ c.toNat then c.toNat - 87
  else if 65 ≤ c.toNat then c.toNat - 55
  else c.toNat - 48

/-- Value of a list of hexadecimal digits. -/
def hexToNat (l : List Char) : Nat :=
  l.foldl (fun a c => a * 16 + hexVal c) 0

/-- Octal digit test. -/
def isOctDigit (c : Char) : Bool :=
  48 ≤ c.toNat && c.toNat ≤ 55

/-- Value of a list of octal digits. -/
def octToNat (l : List Char) : Nat :=
  l.foldl (fun a c => a * 8 + digitVal c) 0

/-- Binary digit test. -/
def isBinDigit (c : Char) : Bool :=
  c.toNat = 48 || c.toNat = 49

/-- Value of a list of binary digits. -/
def binToNat (l : List Char) : Nat :=
  l.foldl (fun a c => a * 2 + digitVal c) 0

/-- Exponent part of a JS decimal literal after the `e`/`E`:
`sign? digits`, consuming the whole list. -/
def readExp : List Char → Option Int
  | '+' :: t => if t ≠ [] ∧ t.all isAsciiDigit then some (digitsToNat t) else none
  | '-' :: t => if t ≠ [] ∧ t.all isAsciiDigit then some (-(digitsToNat t : Int)) else none
  | t => if t ≠ [] ∧ t.all isAsciiDigit then some (digitsToNat t) else none

/-- Exact rational value of a decimal literal with integer part `ip`,
fraction part `fp` and decimal exponent `ex`: the value
`(ip + fp / 10 ^ |fp|) * 10 ^ ex`, built as one normalized fraction. -/
def decValue (ip fp : List Char) (ex : Int) : ℚ :=
  let mantNum : Nat := digitsToNat ip * 10 ^ fp.length + digitsToNat fp
  if 0 ≤ ex then mkRat (mantNum * 10 ^ ex.toNat) (10 ^ fp.length)
  else mkRat mantNum (10 ^ fp.length * 10 ^ (-ex).toNat)

/-- Parse an unsigned ECMAScript StrUnsignedDecimalLiteral (without
`Infinity`) covering the whole list; `none` when the list is not such a
literal. -/
def parseDecAll (l : List Char) : Option ℚ :=
  let ip := l.takeWhile isAsciiDigit
  match l.dropWhile isAsciiDigit with
  | '.' :: t =>
    let fp := t.takeWhile isAsciiDigit
    if ip = [] ∧ fp = [] then none
    else
      match t.dropWhile isAsciiDigit with
      | [] => some (decValue ip fp 0)
      | 'e' :: u => (readExp u).map (decValue ip fp)
      | 'E' :: u => (readExp u).map (decValue ip fp)
      | _ => none
  | [] => if ip = [] then none else some (decValue ip [] 0)
  | 'e' :: u => if ip = [] then none else (readExp u).map (decValue ip [])
  | 'E' :: u => if ip = [] then none else (readExp u).map (decValue ip [])
  | _ => none

/-- Magnitude guard of IEEE-754 double conversion: an exact value whose
absolute value reaches `2^1024 - 2^970` (the round-to-infinity boundary)
converts to `±Infinity`, which `isFinite` rejects; smaller magnitudes stay
finite. -/
def jsFinite (q : ℚ) : Option ℚ :=
  if -(((2 ^ 1024 - 2 ^ 970 : Nat) : Int) : ℚ) < q ∧
      q < (((2 ^ 1024 - 2 ^ 970 : Nat) : Int) : ℚ) then some q
  else none

/-- JS `Number(s)` restricted to its finite outcomes: `some q` when
`Number(s)` is the finite value `q` (represented exactly as a rational, per
the file-level convention), `none` when `Number(s)` is `NaN` or `±Infinity`
— whether written as an `Infinity` literal or produced by overflow of a
finite literal (`jsFinite`). The source only ever asks
`isFinite(Number(s))` and, when that holds, uses the value. -/
def jsNumber (s : String) : Option ℚ :=
  match (jsTrim s).data with
  | [] => some 0
  | '0' :: 'x' :: t =>
    if t ≠ [] ∧ t.all isHexDigitChar then jsFinite (hexToNat t) else none
  | '0' :: 'X' :: t =>
    if t ≠ [] ∧ t.all isHexDigitChar then jsFinite (hexToNat t) else none
  | '0' :: 'o' :: t => if t ≠ [] ∧ t.all isOctDigit then jsFinite (octToNat t) else none
  | '0' :: 'O' :: t => if t ≠ [] ∧ t.all isOctDigit then jsFinite (octToNat t) else none
  | '0' :: 'b' :: t => if t ≠ [] ∧ t.all isBinDigit then jsFinite (binToNat t) else none
  | '0' :: 'B' :: t => if t ≠ [] ∧ t.all isBinDigit then jsFinite (binToNat t) else none
  | '+' :: t => if t = "Infinity".data then none else (parseDecAll t).bind jsFinite
  | '-' :: t =>
    if t = "Infinity".data then none else ((parseDecAll t).map (fun q => -q)).bind jsFinite
  | t => if t = "Infinity".data then none else (parseDecAll t).bind jsFinite

/-- Whether JS `parseFloat(s)` is not `NaN`: after skipping leading
whitespace and an optional sign, the string starts with a digit, with a
dot followed by a digit, or with `Infinity`. -/
def jsParseFloatNotNaN (s : String) : Bool :=
  let l := s.data.dropWhile isJsSpace
  let l2 := match l with
    | '+' :: t => t
    | '-' :: t => t
    | t => t
  match l2 with
  | [] => false
  | c :: rest =>
    isAsciiDigit c ||
    (c = '.' && (match rest with | d :: _ => isAsciiDigit d | [] => false)) ||
    startsWithList "Infinity".data l2

/-- Accumulator loop of `parseCsvRow` (`src/services/googleSheetsService.ts`
lines 12-35): one left-to-right scan with an `inQuotes` flag; `cur` is the
current field buffer in reverse, `vals` the fields already closed. The
source's one-character lookahead (`row[i + 1] === '"'`) appears here as the
two-quote pattern: inside quotes it emits a literal quote and skips both
characters; outside quotes the first of the two simply toggles the flag,
exactly as the source's `else` branch does. -/
def parseCsvRowAux (inQuotes : Bool) (cur : List Char) (vals : List String) :
    List Char → List String
  | [] => vals ++ [jsTrim ⟨cur.reverse⟩]
  | '"' :: '"' :: rest2 =>
    if inQuotes then parseCsvRowAux inQuotes ('"' :: cur) vals rest2
    else parseCsvRowAux true cur vals ('"' :: rest2)
  | '"' :: rest => parseCsvRowAux (!inQuotes) cur vals rest
  | ',' :: rest =>
    if inQuotes then parseCsvRowAux inQuotes (',' :: cur) vals rest
    else parseCsvRowAux false [] (vals ++ [jsTrim ⟨cur.reverse⟩]) rest
  | c :: rest => parseCsvRowAux inQuotes (c :: cur) vals rest

/-- The CSV row/field parser `parseCsvRow`: split one raw row into trimmed
field values, honouring quoted fields and doubled quotes. -/
def parseCsvRow (row : String) : List String :=
  parseCsvRowAux false [] [] row.data

/-- Match the anchored pattern `(\d{1,2})[./](\d{1,2})[./](\d{4})` against a
whole character list, returning the day, month and year digit groups. -/
def matchDMY4 (l : List Char) : Option (String × String × String) :=
  let d := l.takeWhile isAsciiDigit
  if d.length = 0 ∨ 2 < d.length then none
  else
    match l.dropWhile isAsciiDigit with
    | s1 :: r2 =>
      if s1 ≠ '.' ∧ s1 ≠ '/' then none
      else
        let m := r2.takeWhile isAsciiDigit
        if m.length = 0 ∨ 2 < m.length then none
        else
          match r2.dropWhile isAsciiDigit with
          | s2 :: r4 =>
            if s2 ≠ '.' ∧ s2 ≠ '/' then none
            else
              let y := r4.takeWhile isAsciiDigit
              if y.length = 4 ∧ r4.dropWhile isAsciiDigit = [] then some (⟨d⟩, ⟨m⟩, ⟨y⟩)
              else none
          | [] => none
    | [] => none

/-- Match the anchored pattern `(\d{1,2})[./](\d{1,2})[./](\d{2})` against a
whole character list. -/
def matchDMY2 (l : List Char) : Option (String × String × String) :=
  let d := l.takeWhile isAsciiDigit
  if d.length = 0 ∨ 2 < d.length then none
  else
    match l.dropWhile isAsciiDigit with
    | s1 :: r2 =>
      if s1 ≠ '.' ∧ s1 ≠ '/' then none
      else
        let m := r2.takeWhile isAsciiDigit
        if m.length = 0 ∨ 2 < m.length then none
        else
          match r2.dropWhile isAsciiDigit with
          | s2 :: r4 =>
            if s2 ≠ '.' ∧ s2 ≠ '/' then none
            else
              let y := r4.takeWhile isAsciiDigit
              if y.length = 2 ∧ r4.dropWhile isAsciiDigit = [] then some (⟨d⟩, ⟨m⟩, ⟨y⟩)
              else none
          | [] => none
    | [] => none

/-- Match the anchored pattern `(\d{1,2})[./](\d{1,2})` against a whole
character list. -/
def matchDM (l : List Char) : Option (String × String) :=
  let d := l.takeWhile isAsciiDigit
  if d.length = 0 ∨ 2 < d.length then none
  else
    match l.dropWhile isAsciiDigit with
    | s1 :: r2 =>
      if s1 ≠ '.' ∧ s1 ≠ '/' then none
      else
        let m := r2.takeWhile isAsciiDigit
        if (m.length = 1 ∨ m.length = 2) ∧ r2.dropWhile isAsciiDigit = [] then some (⟨d⟩, ⟨m⟩)
        else none
    | [] => none

/-- Zero-pad to width two, JS `padStart(2, '0')` as the source applies it to
the captured day and month groups. -/
def padStart2 (s : String) : String :=
  jsPadStart 2 '0' s

/-- The date normalizer `normalizeDate` (lines 42-67): trim, then try
`D[./]M[./]YYYY`, then `D[./]M[./]YY` (prefixing `20`), then `D[./]M`
(substituting `currentYear`), else return the trimmed input; empty input
yields the empty string. -/
def normalizeDate (currentYear : Nat) (dateStr : String) : String :=
  if dateStr = "" then ""
  else
    let cleanedDateStr := jsTrim dateStr
    match matchDMY4 cleanedDateStr.data with
    | some (d, m, y) => y ++ "-" ++ padStart2 m ++ "-" ++ padStart2 d
    | none =>
      match matchDMY2 cleanedDateStr.data with
      | some (d, m, y) => "20" ++ y ++ "-" ++ padStart2 m ++ "-" ++ padStart2 d
      | none =>
        match matchDM cleanedDateStr.data with
        | some (d, m) => toString currentYear ++ "-" ++ padStart2 m ++ "-" ++ padStart2 d
        | none => cleanedDateStr

/-- The score type of `SubjectGrade` (`src/types.ts`):
`number | 'зачет' | 'н'`. -/
inductive Score where
  | num (value : ℚ)
  | zachet
  | n
deriving DecidableEq, Repr

/-- One emitted grade record, interface `SubjectGrade` of `src/types.ts`.
`user_name` is optional in the source (`user_name?: string`); it is `none`
when the data row has no column 1 at all. -/
structure SubjectGrade where
  user_id : String
  user_name : Option String
  subject : String
  topic : String
  date : String
  score : Score
deriving DecidableEq, Repr

/-- Condition of line 157: `scoreStr.toLowerCase() === 'н'`. -/
def isAbsenceCell (scoreStr : String) : Bool :=
  jsToLowerCase scoreStr = "н"

/-- Condition of line 159:
`!isNaN(parseFloat(scoreStr)) && isFinite(Number(scoreStr))`. -/
def isNumericCell (scoreStr : String) : Bool :=
  jsParseFloatNotNaN scoreStr && (jsNumber scoreStr).isSome

/-- Condition of line 161: `scoreStr.toLowerCase().includes('зачет')`. -/
def isPassCell (scoreStr : String) : Bool :=
  listIncludes "зачет".data (jsToLowerCase scoreStr).data

/-- The score classifier of lines 156-165: absence sentinel first, then
finite number, then pass substring, else no record (`continue`). -/
def classifyScore (scoreStr : String) : Option Score :=
  if isAbsenceCell scoreStr then some Score.n
  else if isNumericCell scoreStr then some (Score.num ((jsNumber scoreStr).getD 0))
  else if isPassCell scoreStr then some Score.zachet
  else none

/-- Body of the score-column loop of lines 146-175 for one column index `i`:
`some record` when the cell at `i` yields a grade record, `none` when any of
the `continue` branches fires (blank cell, blank aligned date, unclassifiable
score). -/
def processCell (currentYear : Nat) (headerRow topicRow : List String)
    (subjectName userId : String) (userName : Option String)
    (row : List String) (i : Nat) : Option SubjectGrade :=
  let scoreStr := removeQuotes (jsTrim ((row.get? i).getD ""))
  if scoreStr = "" then none
  else
    let date := ((headerRow.get? i).map jsTrim).getD ""
    let topicCell := ((topicRow.get? i).map jsTrim).getD ""
    let topic := if topicCell = "" then "N/A" else topicCell
    if date = "" then none
    else
      match classifyScore scoreStr with
      | none => none
      | some score =>
        some { user_id := userId, user_name := userName, subject := subjectName,
               topic := topic, date := normalizeDate currentYear date, score := score }

/-- The column indices the loop `for (let i = row.length - 1; i >= 3; i--)`
visits, in visiting order (descending from `len - 1` down to `3`). -/
def scanIndices (len : Nat) : List Nat :=
  ((List.range len).drop 3).reverse

/-- The per-data-row scanner of lines 136-176: skip blank rows and rows with
a falsy user id, otherwise collect one record per valid score column. -/
def processRow (currentYear : Nat) (headerRow topicRow : List String)
    (subjectName : String) (rowStr : String) : List SubjectGrade :=
  if jsTrim rowStr = "" then []
  else
    let row := parseCsvRow rowStr
    let userId := (((row.get? 0).map jsTrim).getD "")
    let userName := (row.get? 1).map jsTrim
    if userId = "" then []
    else
      (scanIndices row.length).filterMap
        (processCell currentYear headerRow topicRow subjectName userId userName row)

/-- The configured block-start offsets, line 112. -/
def subjectBlockStartRows : List Nat :=
  [0, 18, 36, 54, 72]

/-- One iteration of the `subjectBlockStartRows.forEach` body, lines 114-177.
`some grades` is normal completion; `none` models the `TypeError` the source
raises when `startRowIndex + 1` is out of range, because
`rows[startRowIndex + 1]` is then `undefined` and `parseCsvRow` dereferences
`row.length` on it (line 128 / line 16). -/
def processBlock (currentYear : Nat) (rows : List String)
    (blockIndex startRowIndex : Nat) : Option (List SubjectGrade) :=
  if startRowIndex ≥ rows.length then some []
  else
    let headerRow := parseCsvRow ((rows.get? startRowIndex).getD "")
    let subjectName := ((headerRow.get? 0).map jsTrim).getD ""
    if subjectName = "" then some []
    else
      match rows.get? (startRowIndex + 1) with
      | none => none
      | some topicRowStr =>
        let topicRow := parseCsvRow topicRowStr
        let dataStartRowIndex := startRowIndex + 2
        let nextBlockStart :=
          match subjectBlockStartRows.get? (blockIndex + 1) with
          | some nxt => if nxt = 0 then rows.length else nxt
          | none => rows.length
        let dataRowsForBlock := (rows.take nextBlockStart).drop dataStartRowIndex
        some ((dataRowsForBlock.map
          (processRow currentYear headerRow topicRow subjectName)).flatten)

/-- Sequencing of the `forEach` over the enumerated block offsets: records of
all blocks concatenated in order, or `none` as soon as one block raises (an
exception aborts the whole parse, discarding earlier pushes). -/
def collectBlocks (currentYear : Nat) (rows : List String) :
    List (Nat × Nat) → Option (List SubjectGrade)
  | [] => some []
  | (blockIndex, startRowIndex) :: rest =>
    match processBlock currentYear rows blockIndex startRowIndex,
          collectBlocks currentYear rows rest with
    | some gs, some rs => some (gs ++ rs)
    | _, _ => none

/-- The Unicode byte order mark. -/
def bomChar : Char :=
  Char.ofNat 0xFEFF

/-- The block-pivot parse stage `parseBlockBasedPivotData`, lines 95-180:
strip a leading BOM, trim, split into rows, scan the configured blocks.
`some grades` is normal completion, `none` a thrown exception. -/
def parseBlockBasedPivotData (currentYear : Nat) (csvText : String) :
    Option (List SubjectGrade) :=
  if csvText = "" then some []
  else
    let text := if csvText.data.head? = some bomChar then String.mk csvText.data.tail
                else csvText
    let rows := splitLines (jsTrim text)
    if rows.length < 3 then some []
    else collectBlocks currentYear rows subjectBlockStartRows.enum

/-- Dropping leading whitespace is already exhausted after a
`dropWhile`-then-`rdropWhile` pass: the remaining head cannot be whitespace. -/
theorem dropWhile_rdropWhile_dropWhile (p : Char → Bool) (l : List Char) :
    List.dropWhile p (List.rdropWhile p (List.dropWhile p l))
      = List.rdropWhile p (List.dropWhile p l) := by
  rw [List.dropWhile_eq_self_iff]
  intro hl
  have hpre := List.rdropWhile_prefix p (List.dropWhile p l)
  have h0 : 0 < (List.dropWhile p l).length :=
    Nat.lt_of_lt_of_le hl hpre.length_le
  have hne := List.dropWhile_get_zero_not p l h0
  have hg : (List.rdropWhile p (List.dropWhile p l)).get ⟨0, hl⟩
      = (List.dropWhile p l).get ⟨0, h0⟩ := by
    simpa [List.get_eq_getElem] using hpre.getElem (by simpa using hl)
  rw [hg]
  exact hne

/-- Trimming a character list twice is the same as trimming it once. -/
theorem trimCharList_idem (l : List Char) :
    trimCharList (trimCharList l) = trimCharList l := by
  show List.rdropWhile isJsSpace
      (List.dropWhile isJsSpace
        (List.rdropWhile isJsSpace (List.dropWhile isJsSpace l)))
    = List.rdropWhile isJsSpace (List.dropWhile isJsSpace l)
  rw [dropWhile_rdropWhile_dropWhile, List.rdropWhile_idempotent]

/-- JS `trim` is idempotent. -/
theorem jsTrim_idem (s : String) : jsTrim (jsTrim s) = jsTrim s := by
  show (⟨trimCharList (trimCharList s.data)⟩ : String) = ⟨trimCharList s.data⟩
  rw [trimCharList_idem]

/-- The CSV row scan always closes at least the trailing field. -/
theorem parseCsvRowAux_ne_nil (inQuotes : Bool) (cur : List Char) (vals : List String)
    (l : List Char) : parseCsvRowAux inQuotes cur vals l ≠ [] := by
  induction inQuotes, cur, vals, l using parseCsvRowAux.induct <;>
    simp_all [parseCsvRowAux]

/-- Every field the CSV row scan emits is trim-fixed, provided the fields
already closed are. -/
theorem parseCsvRowAux_trimmed (inQuotes : Bool) (cur : List Char) (vals : List String)
    (l : List Char) :
    (∀ v ∈ vals, jsTrim v = v) → ∀ v ∈ parseCsvRowAux inQuotes cur vals l, jsTrim v = v := by
  induction inQuotes, cur, vals, l using parseCsvRowAux.induct with
  | case1 inQuotes cur vals =>
    intro hv v hmem
    rw [parseCsvRowAux.eq_1] at hmem
    rcases List.mem_append.mp hmem with h | h
    · exact hv v h
    · rw [List.mem_singleton.mp h]
      exact jsTrim_idem _
  | case2 cur vals rest2 ih =>
    intro hv
    rw [parseCsvRowAux.eq_2, if_pos rfl]
    exact ih hv
  | case3 inQuotes cur vals rest2 hq ih =>
    intro hv
    rw [parseCsvRowAux.eq_2, if_neg hq]
    exact ih hv
  | case4 inQuotes cur vals rest hne ih =>
    intro hv
    rw [parseCsvRowAux.eq_3 inQuotes cur vals rest hne]
    exact ih hv
  | case5 cur vals rest ih =>
    intro hv
    rw [parseCsvRowAux.eq_4, if_pos rfl]
    exact ih hv
  | case6 inQuotes cur vals rest hq ih =>
    intro hv
    rw [parseCsvRowAux.eq_4, if_neg hq]
    refine ih ?_
    intro v hm
    rcases List.mem_append.mp hm with h | h
    · exact hv v h
    · rw [List.mem_singleton.mp h]
      exact jsTrim_idem _
  | case7 inQuotes cur vals c rest h1 h2 h3 ih =>
    intro hv
    rw [parseCsvRowAux.eq_5 inQuotes cur vals c rest h1 h2 h3]
    exact ih hv

/-- `parseCsvRow` never returns an empty field list: the trailing field is
always emitted. -/
theorem parseCsvRow_ne_nil (row : String) : parseCsvRow row ≠ [] :=
  parseCsvRowAux_ne_nil false [] [] row.data

/-- Every field `parseCsvRow` returns is trim-fixed. -/
theorem parseCsvRow_trimmed (row : String) : ∀ v ∈ parseCsvRow row, jsTrim v = v :=
  parseCsvRowAux_trimmed false [] [] row.data (by simp)

/-- A string with a nonempty right append part is nonempty. -/
theorem append_ne_empty_of_right (a b : String) (hb : b ≠ "") : a ++ b ≠ "" := by
  intro hc
  apply hb
  have hd : a.data ++ b.data = ([] : List Char) := by
    simpa [String.data_append] using congrArg String.data hc
  have := (List.append_eq_nil.mp hd).2
  exact String.ext (by simpa using this)

/-- Zero-padding to width two never yields the empty string. -/
theorem padStart2_ne_empty (s : String) : padStart2 s ≠ "" := by
  intro hc
  have hd : List.replicate (2 - s.data.length) '0' ++ s.data = ([] : List Char) := by
    simpa [padStart2, jsPadStart] using congrArg String.data hc
  rcases List.append_eq_nil.mp hd with ⟨h1, h2⟩
  rw [h2] at h1
  simp [List.replicate_eq_nil_iff] at h1

/-- On a trim-fixed nonempty input, `normalizeDate` never returns the empty
string: every match branch emits a padded date and the fallthrough returns
the (nonempty) input itself. -/
theorem normalizeDate_ne_empty (currentYear : Nat) (s : String)
    (hfix : jsTrim s = s) (hne : s ≠ "") : normalizeDate currentYear s ≠ "" := by
  simp only [normalizeDate]
  rw [if_neg hne, hfix]
  cases h4 : matchDMY4 s.data with
  | some dmy =>
    obtain ⟨d, m, y⟩ := dmy
    exact append_ne_empty_of_right _ _ (padStart2_ne_empty d)
  | none =>
    cases h2 : matchDMY2 s.data with
    | some dmy =>
      obtain ⟨d, m, y⟩ := dmy
      exact append_ne_empty_of_right _ _ (padStart2_ne_empty d)
    | none =>
      cases h1 : matchDM s.data with
      | some dm =>
        obtain ⟨d, m⟩ := dm
        exact append_ne_empty_of_right _ _ (padStart2_ne_empty d)
      | none => exact hne

/-- Any record `processCell` emits has a nonempty normalized date and a
nonempty topic. -/
theorem processCell_date_topic (currentYear : Nat) (headerRow topicRow : List String)
    (subjectName userId : String) (userName : Option String) (row : List String)
    (i : Nat) (g : SubjectGrade)
    (h : processCell currentYear headerRow topicRow subjectName userId userName row i = some g) :
    g.date ≠ "" ∧ g.topic ≠ "" := by
  simp only [processCell] at h
  split at h
  · exact absurd h (by simp)
  · split at h
    · exact absurd h (by simp)
    · split at h
      · exact absurd h (by simp)
      · rename_i hdate hscrut sc hcl
        have hg := (Option.some_inj.mp h).symm
        subst hg
        constructor
        · show normalizeDate currentYear (((headerRow.get? i).map jsTrim).getD "") ≠ ""
          refine normalizeDate_ne_empty currentYear _ ?_ hdate
          cases headerRow.get? i with
          | none => rfl
          | some c => simpa using jsTrim_idem c
        · show (if ((topicRow.get? i).map jsTrim).getD "" = "" then "N/A"
               else ((topicRow.get? i).map jsTrim).getD "") ≠ ""
          split
          · simp
          · assumption

/-- Any record `processRow` emits has a nonempty normalized date and a
nonempty topic. -/
theorem processRow_date_topic (currentYear : Nat) (headerRow topicRow : List String)
    (subjectName rowStr : String) (g : SubjectGrade)
    (h : g ∈ processRow currentYear headerRow topicRow subjectName rowStr) :
    g.date ≠ "" ∧ g.topic ≠ "" := by
  simp only [processRow] at h
  split at h
  · simp at h
  · split at h
    · simp at h
    · obtain ⟨i, hi, hc⟩ := List.mem_filterMap.mp h
      exact processCell_date_topic _ _ _ _ _ _ _ _ _ hc

/-- Any record a completed block emits has a nonempty normalized date and a
nonempty topic. -/
theorem processBlock_date_topic (currentYear : Nat) (rows : List String)
    (blockIndex startRowIndex : Nat) (gs : List SubjectGrade)
    (h : processBlock currentYear rows blockIndex startRowIndex = some gs) :
    ∀ g ∈ gs, g.date ≠ "" ∧ g.topic ≠ "" := by
  intro g hg
  simp only [processBlock] at h
  split at h
  · rw [← Option.some_inj.mp h] at hg
    simp at hg
  · split at h
    · rw [← Option.some_inj.mp h] at hg
      simp at hg
    · split at h
      · exact absurd h (by simp)
      · rename_i topicRowStr heq
        rw [← Option.some_inj.mp h] at hg
        rw [List.mem_flatten] at hg
        obtain ⟨lrow, hlrow, hgin⟩ := hg
        rw [List.mem_map] at hlrow
        obtain ⟨rowStr, _, hre⟩ := hlrow
        rw [← hre] at hgin
        exact processRow_date_topic _ _ _ _ _ _ hgin

/-- Any record the block scan returns comes from some completed block. -/
theorem collectBlocks_mem (currentYear : Nat) (rows : List String) :
    ∀ (l : List (Nat × Nat)) (gs : List SubjectGrade),
      collectBlocks currentYear rows l = some gs →
      ∀ g ∈ gs, ∃ blockIndex startRowIndex bg,
        processBlock currentYear rows blockIndex startRowIndex = some bg ∧ g ∈ bg := by
  intro l
  induction l with
  | nil =>
    intro gs h g hg
    simp only [collectBlocks] at h
    rw [← Option.some_inj.mp h] at hg
    simp at hg
  | cons p rest ih =>
    intro gs h g hg
    obtain ⟨bi, si⟩ := p
    simp only [collectBlocks] at h
    cases hb : processBlock currentYear rows bi si with
    | none => rw [hb] at h; simp at h
    | some bg =>
      rw [hb] at h
      cases hr : collectBlocks currentYear rows rest with
      | none => rw [hr] at h; simp at h
      | some rs =>
        rw [hr] at h
        rw [← Option.some_inj.mp h] at hg
        rcases List.mem_append.mp hg with hcase | hcase
        · exact ⟨bi, si, bg, hb, hcase⟩
        · exact ih rs hr g hcase

/-- The score-column loop only ever visits column indices between 3 and the
row's last column. -/
theorem mem_scanIndices (len i : Nat) (h : i ∈ scanIndices len) : 3 ≤ i ∧ i < len := by
  simp only [scanIndices, List.mem_reverse] at h
  obtain ⟨j, hj, hje⟩ := List.mem_iff_getElem.mp h
  rw [List.getElem_drop, List.getElem_range] at hje
  have hlen := hj
  rw [List.length_drop, List.length_range] at hlen
  omega

/-- C1: the spec says every structural irregularity in the table is absorbed
by omission and `parseBlockBasedPivotData` runs to completion for every
input. The code violates this: on a table whose row 18 (0-based) starts a
block with a nonempty subject name but whose topic row 19 lies past the end
of the table, `rows[startRowIndex + 1]` is `undefined`, `parseCsvRow`
dereferences `row.length` on it, and the parse stage throws a `TypeError`
(modelled as `none`) instead of omitting the block. This theorem evaluates
the embedded code at that failing input: 18 rows of `","` followed by the
row `"Math"`. -/
theorem c1_topic_row_out_of_range_crash :
    parseBlockBasedPivotData 2024
      ",\n,\n,\n,\n,\n,\n,\n,\n,\n,\n,\n,\n,\n,\n,\n,\n,\n,\nMath" = none := by
  decide

/-- C2: on the three-row input whose rows parse to
`["Math","","","5.9.2024"]`, `["","","","Midterm"]` and
`["u1","Alice","","5"]`, the pipeline emits exactly one record with user id
`u1`, user name `Alice`, subject `Math`, topic `Midterm`, normalized date
`2024-09-05` and numeric score `5` — whatever the current year is, since the
date carries an explicit four-digit year. -/
theorem c2_end_to_end_single_record (currentYear : Nat) :
    parseBlockBasedPivotData currentYear "Math,,,5.9.2024\n,,,Midterm\nu1,Alice,,5" =
      some [{ user_id := "u1", user_name := some "Alice", subject := "Math",
              topic := "Midterm", date := "2024-09-05", score := Score.num 5 }] :=
  rfl

/-- C5: `parseCsvRow` always emits the trailing field (the result is never
empty), every emitted field is trim-fixed, a quoted field may contain the
comma delimiter, and a doubled quote inside a quoted field yields one
literal quote: `a,"b,c",d` parses to `["a", "b,c", "d"]` and `a,"b""c",d`
parses to `["a", "b\"c", "d"]`. -/
theorem c5_quoted_field_round_trip :
    (∀ row : String, parseCsvRow row ≠ [] ∧ ∀ v ∈ parseCsvRow row, jsTrim v = v) ∧
    parseCsvRow "a,\"b,c\",d" = ["a", "b,c", "d"] ∧
    parseCsvRow "a,\"b\"\"c\",d" = ["a", "b\"c", "d"] := by
  refine ⟨fun row => ⟨parseCsvRow_ne_nil row, parseCsvRow_trimmed row⟩, by decide, by decide⟩

/-- Witness for C5 at a concrete row and field. -/
theorem c5_quoted_field_round_trip_witness :
    "b,c" ∈ parseCsvRow "a,\"b,c\",d" ∧ jsTrim "b,c" = "b,c" :=
  ⟨by decide, (c5_quoted_field_round_trip.1 "a,\"b,c\",d").2 "b,c" (by decide)⟩

/-- C6: a configured block offset at or beyond the row count, or one whose
header row has a blank first cell, contributes zero records and raises no
error; scanning continues with the next configured offset — demonstrated by
the concrete table whose block at offset 0 has a blank subject cell while
the block at offset 18 still emits its record. -/
theorem c6_block_omission :
    (∀ (currentYear : Nat) (rows : List String) (blockIndex startRowIndex : Nat),
      (startRowIndex ≥ rows.length ∨
        (((parseCsvRow ((rows.get? startRowIndex).getD "")).get? 0).map jsTrim).getD "" = "") →
      processBlock currentYear rows blockIndex startRowIndex = some []) ∧
    parseBlockBasedPivotData 2024
      ",\n,\n,\n,\n,\n,\n,\n,\n,\n,\n,\n,\n,\n,\n,\n,\n,\n,\nPhys,,,1.2.2024\n,,,T\nu2,Bob,,4" =
      some [{ user_id := "u2", user_name := some "Bob", subject := "Phys",
              topic := "T", date := "2024-02-01", score := Score.num 4 }] := by
  constructor
  · intro currentYear rows blockIndex startRowIndex h
    simp only [processBlock]
    split
    · rfl
    · rename_i hlen
      rcases h with h | h
      · exact absurd h hlen
      · rw [if_pos h]
  · decide

/-- Witness for C6 at concrete offsets: one past the end of a three-row
table, one with a blank subject cell. -/
theorem c6_block_omission_witness :
    processBlock 2024 [",", "x", "y"] 0 5 = some [] ∧
    processBlock 2024 [",", "x", "y"] 0 0 = some [] :=
  ⟨c6_block_omission.1 2024 [",", "x", "y"] 0 5 (Or.inl (by decide)),
   c6_block_omission.1 2024 [",", "x", "y"] 0 0 (Or.inr (by decide))⟩

/-- C7: a data row whose first cell is blank after trimming emits zero
records, no matter how many populated score cells it has — demonstrated both
in general and on the concrete row `,Bob,,5` with a populated score cell. -/
theorem c7_blank_user_id_drops_row :
    (∀ (currentYear : Nat) (headerRow topicRow : List String)
        (subjectName rowStr : String),
      (((parseCsvRow rowStr).get? 0).map jsTrim).getD "" = "" →
      processRow currentYear headerRow topicRow subjectName rowStr = []) ∧
    processRow 2024 ["S", "", "", "1.2.2024"] ["", "", "", "T"] "S" ",Bob,,5" = [] := by
  constructor
  · intro currentYear headerRow topicRow subjectName rowStr h
    simp only [processRow]
    split
    · rfl
    · simp [h]
  · decide

/-- Witness for C7 at a concrete row with a blank id and two populated
score cells. -/
theorem c7_blank_user_id_drops_row_witness :
    processRow 2024 ["S", "", "", "1.2.2024", "3.4.2024"] ["", "", "", "T", "U"] "S"
      " ,Eve,,5,4" = [] :=
  c7_blank_user_id_drops_row.1 2024 ["S", "", "", "1.2.2024", "3.4.2024"]
    ["", "", "", "T", "U"] "S" " ,Eve,,5,4" (by decide)

/-- C9: the parse stage is a pure function of the fetched text and the
observed current year: two invocations on the same input yield element-wise
equal record lists. -/
theorem c9_reparse_deterministic (currentYear : Nat) (csvText : String)
    (gs1 gs2 : List SubjectGrade)
    (h1 : parseBlockBasedPivotData currentYear csvText = some gs1)
    (h2 : parseBlockBasedPivotData currentYear csvText = some gs2) :
    gs1 = gs2 ∧ ∀ i : Nat, gs1.get? i = gs2.get? i := by
  have he : gs1 = gs2 := Option.some_inj.mp (h1.symm.trans h2)
  exact ⟨he, fun i => by rw [he]⟩

/-- Witness for C9 at the concrete three-row table. -/
theorem c9_reparse_deterministic_witness :
    ([{ user_id := "u1", user_name := some "Alice", subject := "Math",
        topic := "Midterm", date := "2024-09-05", score := Score.num 5 }] :
      List SubjectGrade) =
    [{ user_id := "u1", user_name := some "Alice", subject := "Math",
       topic := "Midterm", date := "2024-09-05", score := Score.num 5 }] :=
  (c9_reparse_deterministic 2024 "Math,,,5.9.2024\n,,,Midterm\nu1,Alice,,5" _ _ rfl rfl).1

/-- C3: the score classifier checks, in this order: case-insensitive exact
match of the absence sentinel, finite numeric parse (no range validation),
case-insensitive substring match of the pass sentinel, otherwise no record —
and on the concrete cells, `5` is numeric `5`, `Н` and `н` are the absence
marker, `зачет` is the pass marker, and `xyz` yields nothing. -/
theorem c3_score_classifier_precedence :
    (∀ s : String, isAbsenceCell s = true → classifyScore s = some Score.n) ∧
    (∀ s : String, isAbsenceCell s = false → isNumericCell s = true →
      ∀ q : ℚ, jsNumber s = some q → classifyScore s = some (Score.num q)) ∧
    (∀ s : String, isAbsenceCell s = false → isNumericCell s = false →
      isPassCell s = true → classifyScore s = some Score.zachet) ∧
    (∀ s : String, isAbsenceCell s = false → isNumericCell s = false →
      isPassCell s = false → classifyScore s = none) ∧
    classifyScore "5" = some (Score.num 5) ∧
    classifyScore "Н" = some Score.n ∧
    classifyScore "н" = some Score.n ∧
    classifyScore "зачет" = some Score.zachet ∧
    classifyScore "xyz" = none := by
  refine ⟨?_, ?_, ?_, ?_, by decide, by decide, by decide, by decide, by decide⟩
  · intro s h
    simp [classifyScore, h]
  · intro s h1 h2 q hq
    simp [classifyScore, h1, h2, hq]
  · intro s h1 h2 h3
    simp [classifyScore, h1, h2, h3]
  · intro s h1 h2 h3
    simp [classifyScore, h1, h2, h3]

/-- Witness for C3: the absence branch fires on the concrete uppercase
sentinel. -/
theorem c3_score_classifier_precedence_witness :
    isAbsenceCell "Н" = true ∧ classifyScore "Н" = some Score.n :=
  ⟨by decide, c3_score_classifier_precedence.1 "Н" (by decide)⟩

/-- C4 counterexample: the claim says any input matching no date pattern is
returned unchanged, but the source trims first and returns the trimmed
string: on the input `" garbage "` the function returns `"garbage"`, not
the input itself. -/
theorem c4_unmatched_not_returned_unchanged :
    normalizeDate 2024 " garbage " ≠ " garbage " ∧
    normalizeDate 2024 " garbage " = "garbage" := by
  exact ⟨by decide, by decide⟩

/-- C4 as amended: the input is trimmed first; the trimmed string is then
matched against `D[./]M[./]YYYY` (zero-padded `YYYY-MM-DD`),
`D[./]M[./]YY` (year prefixed with `20`), `D[./]M` (current calendar year
substituted); empty input yields the empty string; any other input is
returned **trimmed** rather than unchanged. The listed examples all hold. -/
theorem c4_normalize_date_amended :
    (∀ currentYear : Nat, normalizeDate currentYear "" = "") ∧
    (∀ (currentYear : Nat) (s : String) (d m y : String),
      s ≠ "" → matchDMY4 (jsTrim s).data = some (d, m, y) →
      normalizeDate currentYear s = y ++ "-" ++ padStart2 m ++ "-" ++ padStart2 d) ∧
    (∀ (currentYear : Nat) (s : String) (d m y : String),
      s ≠ "" → matchDMY4 (jsTrim s).data = none → matchDMY2 (jsTrim s).data = some (d, m, y) →
      normalizeDate currentYear s = "20" ++ y ++ "-" ++ padStart2 m ++ "-" ++ padStart2 d) ∧
    (∀ (currentYear : Nat) (s : String) (d m : String),
      s ≠ "" → matchDMY4 (jsTrim s).data = none → matchDMY2 (jsTrim s).data = none →
      matchDM (jsTrim s).data = some (d, m) →
      normalizeDate currentYear s =
        toString currentYear ++ "-" ++ padStart2 m ++ "-" ++ padStart2 d) ∧
    (∀ (currentYear : Nat) (s : String),
      s ≠ "" → matchDMY4 (jsTrim s).data = none → matchDMY2 (jsTrim s).data = none →
      matchDM (jsTrim s).data = none →
      normalizeDate currentYear s = jsTrim s) ∧
    normalizeDate 2024 "5.9.2024" = "2024-09-05" ∧
    normalizeDate 2024 "5.9.24" = "2024-09-05" ∧
    normalizeDate 2024 "5.9" = "2024-09-05" ∧
    normalizeDate 2024 "2024-09-05" = "2024-09-05" ∧
    normalizeDate 2024 "garbage" = "garbage" := by
  refine ⟨?_, ?_, ?_, ?_, ?_, by decide, by decide, by decide, by decide, by decide⟩
  · intro currentYear
    simp [normalizeDate]
  · intro currentYear s d m y hne h4
    simp only [normalizeDate]
    rw [if_neg hne, h4]
  · intro currentYear s d m y hne h4 h2
    simp only [normalizeDate]
    rw [if_neg hne, h4, h2]
  · intro currentYear s d m hne h4 h2 h1
    simp only [normalizeDate]
    rw [if_neg hne, h4, h2, h1]
  · intro currentYear s hne h4 h2 h1
    simp only [normalizeDate]
    rw [if_neg hne, h4, h2, h1]

/-- Witness for C4's amended claim: the trimmed-passthrough branch and the
four-digit-year branch at concrete inputs. -/
theorem c4_normalize_date_amended_witness :
    normalizeDate 2024 " garbage  " = "garbage" ∧
    normalizeDate 2024 "5/9/2024" = "2024-09-05" :=
  ⟨((c4_normalize_date_amended.2.2.2.2.1) 2024 " garbage  " (by decide) (by decide)
      (by decide) (by decide)).trans (by decide),
   ((c4_normalize_date_amended.2.1) 2024 "5/9/2024" "5" "9" "2024" (by decide)
      (by decide)).trans (by decide)⟩

/-- C8: every record the pipeline emits has a nonempty date (a blank aligned
header cell never yields a record) and a nonempty topic (a blank aligned
topic cell is replaced by the placeholder `N/A` rather than skipped), and
the score scan only visits column indices from 3 up to the row's last
column, so columns 0-2 never contribute a record. -/
theorem c8_emitted_record_invariants :
    (∀ (currentYear : Nat) (csvText : String) (gs : List SubjectGrade),
      parseBlockBasedPivotData currentYear csvText = some gs →
      ∀ g ∈ gs, g.date ≠ "" ∧ g.topic ≠ "") ∧
    (∀ (currentYear : Nat) (headerRow topicRow : List String)
        (subjectName userId : String) (userName : Option String)
        (row : List String) (i : Nat) (g : SubjectGrade),
      processCell currentYear headerRow topicRow subjectName userId userName row i = some g →
      (((topicRow.get? i).map jsTrim).getD "") = "" → g.topic = "N/A") ∧
    (∀ len i : Nat, i ∈ scanIndices len → 3 ≤ i ∧ i < len) := by
  refine ⟨?_, ?_, mem_scanIndices⟩
  · intro currentYear csvText gs h g hg
    simp only [parseBlockBasedPivotData] at h
    split at h
    · rw [← Option.some_inj.mp h] at hg
      simp at hg
    · split at h
      · split at h
        · rw [← Option.some_inj.mp h] at hg
          simp at hg
        · obtain ⟨bi, si, bg, hb, hgb⟩ := collectBlocks_mem _ _ _ _ h g hg
          exact processBlock_date_topic _ _ _ _ _ hb g hgb
      · split at h
        · rw [← Option.some_inj.mp h] at hg
          simp at hg
        · obtain ⟨bi, si, bg, hb, hgb⟩ := collectBlocks_mem _ _ _ _ h g hg
          exact processBlock_date_topic _ _ _ _ _ hb g hgb
  · intro currentYear headerRow topicRow subjectName userId userName row i g h htop
    simp only [processCell, htop, reduceIte] at h
    split at h
    · exact absurd h (by simp)
    · split at h
      · exact absurd h (by simp)
      · split at h
        · exact absurd h (by simp)
        · rw [← Option.some_inj.mp h]

/-- Witness for C8 on the record the concrete three-row table emits. -/
theorem c8_emitted_record_invariants_witness :
    ({ user_id := "u1", user_name := some "Alice", subject := "Math", topic := "Midterm",
       date := "2024-09-05", score := Score.num 5 } : SubjectGrade).date ≠ "" ∧
    ({ user_id := "u1", user_name := some "Alice", subject := "Math", topic := "Midterm",
       date := "2024-09-05", score := Score.num 5 } : SubjectGrade).topic ≠ "" :=
  c8_emitted_record_invariants.1 2024 "Math,,,5.9.2024\n,,,Midterm\nu1,Alice,,5"
    [{ user_id := "u1", user_name := some "Alice", subject := "Math", topic := "Midterm",
       date := "2024-09-05", score := Score.num 5 }] rfl
    { user_id := "u1", user_name := some "Alice", subject := "Math", topic := "Midterm",
      date := "2024-09-05", score := Score.num 5 } (by decide)

/-- An ASCII digit is not ECMAScript whitespace. -/
theorem isJsSpace_eq_false_of_digit (c : Char) (h : isAsciiDigit c = true) :
    isJsSpace c = false := by
  simp only [isAsciiDigit, Bool.and_eq_true, decide_eq_true_eq] at h
  simp only [isJsSpace, Bool.or_eq_false_iff, decide_eq_false_iff_not, Bool.and_eq_false_iff,
    decide_eq_false_iff_not, Decidable.not_not]
  omega

/-- Scanning digits off the front of `l ++ c :: r` where `l` is all digits
and `c` is not: `takeWhile` yields `l` and `dropWhile` yields `c :: r`. -/
theorem takeWhile_all_append (p : Char → Bool) (l : List Char) (c : Char) (r : List Char)
    (hl : ∀ x ∈ l, p x = true) (hc : p c = false) :
    (l ++ c :: r).takeWhile p = l ∧ (l ++ c :: r).dropWhile p = c :: r := by
  induction l with
  | nil => simp [List.takeWhile_cons, List.dropWhile_cons, hc]
  | cons a l' ih =>
    have ha : p a = true := hl a (List.mem_cons_self a l')
    have ih' := ih (fun x hx => hl x (List.mem_cons_of_mem a hx))
    simp [List.takeWhile_cons, List.dropWhile_cons, ha, ih'.1, ih'.2]

/-- Scanning digits over an all-digit list consumes it whole. -/
theorem takeWhile_all (p : Char → Bool) (l : List Char) (hl : ∀ x ∈ l, p x = true) :
    l.takeWhile p = l ∧ l.dropWhile p = [] := by
  induction l with
  | nil => simp
  | cons a l' ih =>
    have ha : p a = true := hl a (List.mem_cons_self a l')
    have ih' := ih (fun x hx => hl x (List.mem_cons_of_mem a hx))
    simp [List.takeWhile_cons, List.dropWhile_cons, ha, ih'.1, ih'.2]

/-- A list with no whitespace characters is trim-fixed. -/
theorem trimCharList_eq_self (l : List Char) (h : ∀ c ∈ l, isJsSpace c = false) :
    trimCharList l = l := by
  unfold trimCharList
  have h1 : l.dropWhile isJsSpace = l := by
    rw [List.dropWhile_eq_self_iff]
    intro hl
    rw [h _ (List.get_mem l 0 hl)]
    simp
  rw [h1]
  have h2 : l.reverse.dropWhile isJsSpace = l.reverse := by
    rw [List.dropWhile_eq_self_iff]
    intro hl
    rw [h _ (List.mem_reverse.mp (List.get_mem l.reverse 0 hl))]
    simp
  rw [h2, List.reverse_reverse]

/-- The anchored `D[./]M[./]YYYY` matcher accepts exactly the concatenation
of a 1-2 digit group, a separator, a 1-2 digit group, a separator and a
4-digit group, capturing the groups. -/
theorem matchDMY4_concat (d m y : List Char)
    (hd : ∀ x ∈ d, isAsciiDigit x = true) (hm : ∀ x ∈ m, isAsciiDigit x = true)
    (hy : ∀ x ∈ y, isAsciiDigit x = true)
    (hd1 : 1 ≤ d.length) (hd2 : d.length ≤ 2) (hm1 : 1 ≤ m.length) (hm2 : m.length ≤ 2)
    (hy4 : y.length = 4) :
    matchDMY4 (d ++ '.' :: (m ++ '.' :: y)) = some (⟨d⟩, ⟨m⟩, ⟨y⟩) := by
  have h1 := takeWhile_all_append isAsciiDigit d '.' (m ++ '.' :: y) hd (by decide)
  have h2 := takeWhile_all_append isAsciiDigit m '.' y hm (by decide)
  have h3 := takeWhile_all isAsciiDigit y hy
  have hdc : ¬(d.length = 0 ∨ 2 < d.length) := by omega
  have hmc : ¬(m.length = 0 ∨ 2 < m.length) := by omega
  simp only [matchDMY4, h1.1, h1.2, hdc, if_false, h2.1, h2.2, hmc, h3.1, h3.2, hy4]
  simp

/-- C10: the date normalizer performs no calendar validity check: any 1-2
digit day and month groups — including impossible values like day 99 or
month 13 — are accepted, zero-padded and reformatted, both in general for
the `D[./]M[./]YYYY` pattern and on the concrete inputs for the other
patterns, e.g. `99.99.2024` becomes `2024-99-99`. -/
theorem c10_no_calendar_validation :
    (∀ (currentYear : Nat) (d m y : List Char),
      (∀ x ∈ d, isAsciiDigit x = true) → (∀ x ∈ m, isAsciiDigit x = true) →
      (∀ x ∈ y, isAsciiDigit x = true) →
      1 ≤ d.length → d.length ≤ 2 → 1 ≤ m.length → m.length ≤ 2 → y.length = 4 →
      normalizeDate currentYear ⟨d ++ '.' :: (m ++ '.' :: y)⟩ =
        (⟨y⟩ : String) ++ "-" ++ padStart2 ⟨m⟩ ++ "-" ++ padStart2 ⟨d⟩) ∧
    normalizeDate 2024 "99.99.2024" = "2024-99-99" ∧
    normalizeDate 2024 "31.02.2024" = "2024-02-31" ∧
    normalizeDate 2024 "99.99.99" = "2099-99-99" ∧
    normalizeDate 2024 "31.13" = "2024-13-31" := by
  refine ⟨?_, by decide, by decide, by decide, by decide⟩
  intro currentYear d m y hd hm hy hd1 hd2 hm1 hm2 hy4
  have hne : (⟨d ++ '.' :: (m ++ '.' :: y)⟩ : String) ≠ "" := by
    intro hc
    have hdata : d ++ '.' :: (m ++ '.' :: y) = ([] : List Char) := congrArg String.data hc
    rcases List.append_eq_nil.mp hdata with ⟨hdnil, _⟩
    rw [hdnil] at hd1
    simp at hd1
  have hsp : ∀ c ∈ d ++ '.' :: (m ++ '.' :: y), isJsSpace c = false := by
    intro c hc
    rcases List.mem_append.mp hc with h | h
    · exact isJsSpace_eq_false_of_digit c (hd c h)
    · rcases List.mem_cons.mp h with h | h
      · rw [h]; decide
      · rcases List.mem_append.mp h with h | h
        · exact isJsSpace_eq_false_of_digit c (hm c h)
        · rcases List.mem_cons.mp h with h | h
          · rw [h]; decide
          · exact isJsSpace_eq_false_of_digit c (hy c h)
  have htrim : jsTrim ⟨d ++ '.' :: (m ++ '.' :: y)⟩ = ⟨d ++ '.' :: (m ++ '.' :: y)⟩ := by
    show (⟨trimCharList (d ++ '.' :: (m ++ '.' :: y))⟩ : String) = _
    rw [trimCharList_eq_self _ hsp]
  simp only [normalizeDate]
  rw [if_neg hne, htrim]
  rw [show (⟨d ++ '.' :: (m ++ '.' :: y)⟩ : String).data = d ++ '.' :: (m ++ '.' :: y) from rfl]
  rw [matchDMY4_concat d m y hd hm hy hd1 hd2 hm1 hm2 hy4]

/-- Witness for C10: the general pattern theorem applied to day group 99,
month group 99, year group 2024. -/
theorem c10_no_calendar_validation_witness :
    normalizeDate 2024 "99.99.2024" = "2024-99-99" := by
  have h := c10_no_calendar_validation.1 2024 ['9', '9'] ['9', '9'] ['2', '0', '2', '4']
    (by decide) (by decide) (by decide) (by decide) (by decide) (by decide) (by decide)
    (by decide)
  exact h.trans (by decide)
